import Mathlib

/-!
Verification of the lazy-callback registration core of stencil-lazy
(src/src/index.ts), shallowly embedded in Lean 4.

The embedding follows the TypeScript source:
  * `getValidMargin` (lines 91-97): validates a CSS-margin-like string,
    splitting the effective string on runs of whitespace (JS `split(/\s+/)`,
    modelled by `splitWs`) and testing each token against the anchored
    regular expression `(-?\d*\.?\d+)(px|%)` (modelled by `matchToken`).
  * `registerLazy` (lines 54-84): the registration state machine, with the
    IntersectionObserver path (watcher creation, event handling, disconnect)
    and the setTimeout fallback path.
  * `Lazy` (lines 33-48): the decorator that wraps `componentDidLoad`.

Components and elements are identified by natural numbers; the observable
effect of `callback.call(component)` is recorded as the receiver value
appended to a call trace.
-/

/-- The ECMAScript `\s` character class (WhiteSpace and LineTerminator),
used by the separator regex in `marginString.split(/\s+/)`. -/
def jsWs (c : Char) : Bool :=
  c = ' ' || c = '\t' || c = '\n' || c.toNat = 11 || c.toNat = 12 || c = '\r' ||
  c.toNat = 0xa0 || c.toNat = 0x1680 ||
  (0x2000 ≤ c.toNat && c.toNat ≤ 0x200a) ||
  c.toNat = 0x2028 || c.toNat = 0x2029 || c.toNat = 0x202f ||
  c.toNat = 0x205f || c.toNat = 0x3000 || c.toNat = 0xfeff

/-- The unit suffix of a margin token: `px` or `%`, with nothing after it
(the regex is anchored with `$`). -/
def isUnit : List Char → Bool
  | ['p', 'x'] => true
  | ['%'] => true
  | _ => false

/-- Matches `\d*\.?\d+` followed by `(px|%)$`: a maximal run of digits, then
optionally a dot followed by a nonempty run of digits, then the unit.
Greedy maximal matching is equivalent to the regex here because a digit can
start neither the dot nor the unit. -/
def matchNumUnit (cs : List Char) : Bool :=
  let ds1 := cs.takeWhile Char.isDigit
  let r1 := cs.dropWhile Char.isDigit
  match r1 with
  | '.' :: r2 =>
      let ds2 := r2.takeWhile Char.isDigit
      let r3 := r2.dropWhile Char.isDigit
      !ds2.isEmpty && isUnit r3
  | _ => !ds1.isEmpty && isUnit r1

/-- Full match of one token against `/^(-?\d*\.?\d+)(px|%)$/`
(the RegExp built at line 92 of the source). -/
def matchToken : List Char → Bool
  | '-' :: rest => matchNumUnit rest
  | cs => matchNumUnit cs

/-- JS `String.prototype.split(/\s+/)`, one structural pass.
`cur` is the current (reversed) token; `inWs` records whether the previous
character belonged to a whitespace run (so the run emits only one split).
Matches ECMAScript semantics: a leading whitespace run yields a leading `""`,
a trailing run a trailing `""`, and `""` splits to `[""]`. -/
def splitWsAux : List Char → List Char → Bool → List (List Char)
  | [], cur, _ => [cur.reverse]
  | c :: rest, cur, inWs =>
    if jsWs c then
      if inWs then splitWsAux rest [] true
      else cur.reverse :: splitWsAux rest [] true
    else splitWsAux rest (c :: cur) false

/-- `s.split(/\s+/)` on the character list of `s`. -/
def splitWs (cs : List Char) : List (List Char) :=
  splitWsAux cs [] false

/-- `getValidMargin` (source lines 91-97).
`margin : Option String` models the optional `margin?` parameter: `none` is
`undefined`. `margin || "0px"` defaults both `undefined` and the empty
string (the only falsy string) to `"0px"`. Returns `none` for JS `null`. -/
def getValidMargin (margin : Option String) : Option String :=
  let marginString := match margin with
    | none => "0px"
    | some s => if s = "" then "0px" else s
  if (splitWs marginString.data).all matchToken then some marginString else none

/-- Whether a character list neither starts nor ends with an ECMAScript
whitespace character — the discriminating condition for acceptance of
otherwise-valid margin strings. -/
def noEdgeWs (cs : List Char) : Bool :=
  (cs.head?.all fun c => !jsWs c) && (cs.getLast?.all fun c => !jsWs c)

/-- One entry of an IntersectionObserver callback batch; the handler reads
only its `isIntersecting` field. -/
structure Entry where
  isIntersecting : Bool
deriving DecidableEq

/-- A batch of entries delivered to the observer callback. The
IntersectionObserver API always delivers at least one entry, and the source
reads `data[0]`, so the first entry is kept separate from the rest. -/
structure Batch where
  first : Entry
  rest : List Entry
deriving DecidableEq

/-- State of the watcher created by `registerLazy`: whether it is still
connected, and the trace of callback invocations so far, each recorded as
the receiver (`this` value) the callback was called with. -/
structure WatcherState where
  connected : Bool
  calls : List Nat
deriving DecidableEq

/-- The watcher state right after `io.observe(element)`: connected, with no
callback invocation yet. -/
def initialWatcher : WatcherState :=
  { connected := true, calls := [] }

/-- The observer callback body (source lines 68-74):
`if (data[0].isIntersecting) { callback.call(component); io.disconnect(); io = null; }`.
Only the first entry of the batch is inspected. -/
def ioCallback (component : Nat) (st : WatcherState) (data : Batch) : WatcherState :=
  if data.first.isIntersecting then
    { connected := false, calls := st.calls ++ [component] }
  else st

/-- One event delivery by the IntersectionObserver runtime: the callback body
runs only while the observer is connected (after `io.disconnect()` the
runtime delivers no further events). -/
def deliver (component : Nat) (st : WatcherState) (data : Batch) : WatcherState :=
  if st.connected then ioCallback component st data else st

/-- A sequence of event deliveries, in order. -/
def deliverAll (component : Nat) (st : WatcherState) (batches : List Batch) : WatcherState :=
  batches.foldl (deliver component) st

/-- The error message thrown for an invalid margin (source lines 63-65,
quotes elided). -/
def invalidMarginMsg : String :=
  "@Lazy() decorator optional parameter margin is given but not valid. It should be a string like CSS margin property, e.g. 10px 20px 30px 40px (top, right, bottom, left) or just 10px (all). The values can be percentages "

/-- Result of one `registerLazy` call: either the Invalid-Margin error was
thrown, or a watcher observing `element` was created with the resolved
`rootMargin`, or (fallback path) a timer was scheduled; `task` is the trace
of callback invocations the timer performs when it fires. -/
inductive RegResult where
  | error (msg : String)
  | observed (rootMargin : String) (element : Nat)
  | timer (delay : Nat) (task : List Nat)
deriving DecidableEq

/-- `registerLazy` (source lines 54-84). `ioAvailable` models the feature
test `"IntersectionObserver" in window`. On the primary path the margin is
validated first: `null` throws, otherwise an observer is created for
`element` with the resolved margin. On the fallback path
`setTimeout(() => { callback.call(component); }, 300)` is scheduled. -/
def registerLazy (ioAvailable : Bool) (component element : Nat)
    (marginProp : Option String) : RegResult :=
  if ioAvailable then
    match getValidMargin marginProp with
    | none => .error invalidMarginMsg
    | some margin => .observed margin element
  else
    .timer 300 [component]

/-- Two consecutive `registerLazy` calls for the same component, element and
margin (the source keeps no per-element state, so the calls are
independent). -/
def registerTwice (component element : Nat) (marginProp : Option String) :
    RegResult × RegResult :=
  (registerLazy true component element marginProp,
   registerLazy true component element marginProp)

/-- Number of watchers a single `registerLazy` call created. -/
def watchersCreated : RegResult → Nat
  | .observed _ _ => 1
  | _ => 0

/-- The options object of the `Lazy` decorator (`LazyOptions`): `margin` may
be absent (`undefined`). -/
structure LazyOptions where
  margin : Option String
deriving DecidableEq

/-- The margin value the wrapped hook passes to `registerLazy`
(source line 43): `options ? options.margin : ""`. -/
def lazyMargin (options : Option LazyOptions) : Option String :=
  match options with
  | some o => o.margin
  | none => some ""

/-- Observable events of the replacement `componentDidLoad` hook installed by
`Lazy`: the `registerLazy` call with its arguments, and the invocation of the
original hook with its result. -/
inductive HookEvent (α : Type) where
  | registerLazyCall (component host : Nat) (methodName : String)
      (marginProp : Option String)
  | origDidLoad (component : Nat) (result : α)

/-- A component prototype as the decorator sees it: `componentDidLoad` may or
may not already be defined; when defined it is modelled as a pure function
from the instance to its result. -/
structure Proto (α : Type) where
  componentDidLoad : Option (Nat → α)

/-- The replacement `componentDidLoad` installed by the `Lazy` decorator
(source lines 40-46): it resolves the host element (`getElement(this)`),
calls `registerLazy(this, host, method, margin)` with the decorated method
`methodName` as callback, then evaluates
`componentDidLoad && componentDidLoad.call(this)` — invoking the original
hook exactly when one existed and returning its result (else `undefined`,
modelled as `none`). The `BUILD.cmpDidLoad = true` line is a compiler-flag
workaround with no behavior in this model. Returns the event trace and the
hook's return value. -/
def Lazy {α : Type} (options : Option LazyOptions) (methodName : String)
    (getElement : Nat → Nat) (proto : Proto α) (this_ : Nat) :
    List (HookEvent α) × Option α :=
  let host := getElement this_
  let marginProp := lazyMargin options
  match proto.componentDidLoad with
  | some orig =>
      ([.registerLazyCall this_ host methodName marginProp,
        .origDidLoad this_ (orig this_)],
       some (orig this_))
  | none =>
      ([.registerLazyCall this_ host methodName marginProp], none)

/-! ### Helper lemmas about the whitespace split -/

/-- The empty token does not match the token regex. -/
lemma matchToken_nil : matchToken [] = false := by decide

/-- A string starting with a whitespace character splits with a leading empty
token. -/
lemma nil_mem_splitWs_of_head (c : Char) (cs : List Char) (h : jsWs c = true) :
    [] ∈ splitWs (c :: cs) := by
  simp [splitWs, splitWsAux, h]

/-- One-step unfolding of `splitWsAux` on a cons cell. -/
lemma splitWsAux_cons (c : Char) (rest cur : List Char) (inWs : Bool) :
    splitWsAux (c :: rest) cur inWs =
      if jsWs c then
        (if inWs then splitWsAux rest [] true
         else cur.reverse :: splitWsAux rest [] true)
      else splitWsAux rest (c :: cur) false := rfl

/-- Unfolding of `splitWsAux` on the empty list. -/
lemma splitWsAux_nil (cur : List Char) (inWs : Bool) :
    splitWsAux [] cur inWs = [cur.reverse] := rfl

/-- A string ending with a whitespace character splits with a trailing empty
token, whatever the accumulator state. -/
lemma nil_mem_splitWsAux_of_last (cs : List Char) :
    ∀ (cur : List Char) (inWs : Bool) (c : Char),
      cs.getLast? = some c → jsWs c = true → [] ∈ splitWsAux cs cur inWs := by
  induction cs with
  | nil => intro cur inWs c h _; simp at h
  | cons a rest ih =>
    intro cur inWs c h hws
    rw [splitWsAux_cons]
    cases rest with
    | nil =>
      have hac : a = c := by simpa using h
      subst hac
      rw [if_pos hws]
      cases inWs with
      | true => rw [if_pos rfl, splitWsAux_nil]; simp
      | false => rw [if_neg Bool.false_ne_true, splitWsAux_nil]; simp
    | cons b rest' =>
      rw [List.getLast?_cons_cons] at h
      by_cases ha : jsWs a = true
      · have hrec := ih [] true c h hws
        rw [if_pos ha]
        cases inWs with
        | true => rw [if_pos rfl]; exact hrec
        | false => rw [if_neg Bool.false_ne_true]; exact List.mem_cons_of_mem _ hrec
      · rw [if_neg ha]
        exact ih (a :: cur) false c h hws

/-- If the string is nonempty, does not start or end with whitespace, and the
pending token is irrelevant, the split contains no empty token. -/
lemma nil_not_mem_splitWsAux (cs : List Char) :
    ∀ (cur : List Char) (inWs : Bool),
      (cs = [] → cur ≠ []) →
      (∀ c, cs.getLast? = some c → jsWs c = false) →
      (inWs = false → cur = [] → ∀ c, cs.head? = some c → jsWs c = false) →
      [] ∉ splitWsAux cs cur inWs := by
  induction cs with
  | nil =>
    intro cur inWs h1 _ _
    rw [splitWsAux_nil]
    intro hmem
    have hc : [] = cur.reverse := by simpa using hmem
    exact h1 rfl (List.reverse_eq_nil_iff.mp hc.symm)
  | cons a rest ih =>
    intro cur inWs h1 h2 h3
    rw [splitWsAux_cons]
    by_cases ha : jsWs a = true
    · have hrest : rest ≠ [] := by
        intro hr
        subst hr
        have hlast := h2 a (by simp)
        rw [ha] at hlast
        exact Bool.noConfusion hlast
      obtain ⟨b, rest', rfl⟩ := List.exists_cons_of_ne_nil hrest
      have h2' : ∀ c, (b :: rest').getLast? = some c → jsWs c = false :=
        fun c hc => h2 c (by rw [List.getLast?_cons_cons]; exact hc)
      have hrec : [] ∉ splitWsAux (b :: rest') [] true :=
        ih [] true (fun hr => absurd hr (List.cons_ne_nil b rest')) h2'
          (fun hiw => Bool.noConfusion hiw)
      rw [if_pos ha]
      cases inWs with
      | true => rw [if_pos rfl]; exact hrec
      | false =>
        rw [if_neg Bool.false_ne_true]
        intro hmem
        rcases List.mem_cons.mp hmem with hc | hc
        · have hcur : cur = [] := List.reverse_eq_nil_iff.mp hc.symm
          have hhead := h3 rfl hcur a (by simp)
          rw [ha] at hhead
          exact Bool.noConfusion hhead
        · exact hrec hc
    · rw [if_neg ha]
      refine ih (a :: cur) false (fun _ => List.cons_ne_nil a cur) ?_
        (fun _ hc => absurd hc (List.cons_ne_nil a cur))
      intro c hc
      cases rest with
      | nil => simp at hc
      | cons b rest' => exact h2 c (by rw [List.getLast?_cons_cons]; exact hc)

/-- For a nonempty string, the split has no empty token exactly when the
string neither starts nor ends with whitespace. -/
lemma nil_not_mem_splitWs_iff (cs : List Char) (h : cs ≠ []) :
    [] ∉ splitWs cs ↔
      ((∀ c, cs.head? = some c → jsWs c = false) ∧
       (∀ c, cs.getLast? = some c → jsWs c = false)) := by
  obtain ⟨b, tl, rfl⟩ := List.exists_cons_of_ne_nil h
  constructor
  · intro hno
    refine ⟨?_, ?_⟩
    · intro c hc
      have hbc : b = c := by simpa using hc
      subst hbc
      cases hw : jsWs b with
      | false => rfl
      | true => exact absurd (nil_mem_splitWs_of_head b tl hw) hno
    · intro c hc
      cases hw : jsWs c with
      | false => rfl
      | true => exact absurd (nil_mem_splitWsAux_of_last (b :: tl) [] false c hc hw) hno
  · rintro ⟨hh, hl⟩
    exact nil_not_mem_splitWsAux (b :: tl) [] false
      (fun hc => absurd hc (List.cons_ne_nil b tl)) hl (fun _ _ => hh)

/-- A nonempty string's data is a nonempty character list. -/
lemma data_ne_nil_of_ne_empty (s : String) (hs : s ≠ "") : s.data ≠ [] := by
  intro hd
  apply hs
  cases s
  simp_all [String.ext_iff]

/-- Unfolding `getValidMargin` on a nonempty string. -/
lemma getValidMargin_some_of_ne (s : String) (hs : s ≠ "") :
    getValidMargin (some s) =
      if (splitWs s.data).all matchToken then some s else none := by
  simp [getValidMargin, hs]

/-- When every nonempty token matches, the whole `every` check succeeds
exactly when no empty token occurs. -/
lemma all_matchToken_iff_nil_not_mem (cs : List Char)
    (hv : ∀ t ∈ splitWs cs, t ≠ [] → matchToken t = true) :
    (splitWs cs).all matchToken = true ↔ [] ∉ splitWs cs := by
  rw [List.all_eq_true]
  constructor
  · intro hall hmem
    have := hall [] hmem
    rw [matchToken_nil] at this
    exact absurd this (by simp)
  · intro hnm t ht
    by_cases he : t = []
    · exact absurd (he ▸ ht) hnm
    · exact hv t ht he

/-! ### Helper lemmas about watcher event delivery -/

/-- A delivery whose first entry is not intersecting changes nothing. -/
lemma deliver_not_intersecting (component : Nat) (st : WatcherState) (b : Batch)
    (hb : b.first.isIntersecting = false) :
    deliver component st b = st := by
  simp [deliver, ioCallback, hb]

/-- Deliveries whose first entries are all non-intersecting change nothing. -/
lemma deliverAll_not_intersecting (component : Nat) (batches : List Batch) :
    ∀ st : WatcherState, (∀ b ∈ batches, b.first.isIntersecting = false) →
      deliverAll component st batches = st := by
  induction batches with
  | nil => intro st _; rfl
  | cons b bs ih =>
    intro st h
    have hb : b.first.isIntersecting = false := h b (by simp)
    show deliverAll component (deliver component st b) bs = st
    rw [deliver_not_intersecting component st b hb]
    exact ih st (fun x hx => h x (by simp [hx]))

/-- After disconnection no delivery has any effect. -/
lemma deliverAll_disconnected (component : Nat) (batches : List Batch) :
    ∀ st : WatcherState, st.connected = false → deliverAll component st batches = st := by
  induction batches with
  | nil => intro st _; rfl
  | cons b bs ih =>
    intro st h
    show deliverAll component (deliver component st b) bs = st
    rw [show deliver component st b = st by simp [deliver, h]]
    exact ih st h

/-- `noEdgeWs` in propositional form. -/
lemma noEdgeWs_iff (cs : List Char) :
    noEdgeWs cs = true ↔
      ((∀ c, cs.head? = some c → jsWs c = false) ∧
       (∀ c, cs.getLast? = some c → jsWs c = false)) := by
  rw [noEdgeWs, Bool.and_eq_true]
  constructor
  · rintro ⟨h1, h2⟩
    refine ⟨fun c hc => ?_, fun c hc => ?_⟩
    · rw [hc] at h1; simpa using h1
    · rw [hc] at h2; simpa using h2
  · rintro ⟨h1, h2⟩
    constructor
    · cases hh : cs.head? with
      | none => rfl
      | some c => simpa using h1 c hh
    · cases hh : cs.getLast? with
      | none => rfl
      | some c => simpa using h2 c hh

/-! ### Claim theorems -/

/-- C1: On the primary path with a valid margin, registration creates the
watcher; deliveries whose first entry is non-intersecting have no effect, and
on the first intersecting delivery the callback runs exactly once with the
component as receiver, the watcher is disconnected, and later deliveries
change nothing. -/
theorem C1_primary_path_single_fire
    (component element : Nat) (marginProp : Option String) (margin : String)
    (pre post : List Batch) (b : Batch)
    (hm : getValidMargin marginProp = some margin)
    (hpre : ∀ x ∈ pre, x.first.isIntersecting = false)
    (hb : b.first.isIntersecting = true) :
    registerLazy true component element marginProp =
      RegResult.observed margin element ∧
    deliverAll component initialWatcher pre = initialWatcher ∧
    deliverAll component initialWatcher (pre ++ b :: post) =
      { connected := false, calls := [component] } := by
  refine ⟨by simp [registerLazy, hm],
    deliverAll_not_intersecting component pre initialWatcher hpre, ?_⟩
  have h1 : deliverAll component initialWatcher (pre ++ b :: post) =
      deliverAll component (deliverAll component initialWatcher pre) (b :: post) := by
    simp [deliverAll, List.foldl_append]
  rw [h1, deliverAll_not_intersecting component pre initialWatcher hpre]
  show deliverAll component (deliver component initialWatcher b) post = _
  have h2 : deliver component initialWatcher b =
      { connected := false, calls := [component] } := by
    simp [deliver, ioCallback, initialWatcher, hb]
  rw [h2]
  exact deliverAll_disconnected component post _ rfl

/-- Witness for C1: a non-intersecting event, then an intersecting one, then
one more; the callback fires once, on the second event. -/
theorem C1_primary_path_single_fire_witness :
    (getValidMargin (some "100px") = some "100px" ∧
     (∀ x ∈ [Batch.mk ⟨false⟩ []], x.first.isIntersecting = false) ∧
     (Batch.mk ⟨true⟩ []).first.isIntersecting = true) ∧
    (registerLazy true 0 1 (some "100px") = RegResult.observed "100px" 1 ∧
     deliverAll 0 initialWatcher [Batch.mk ⟨false⟩ []] = initialWatcher ∧
     deliverAll 0 initialWatcher
        ([Batch.mk ⟨false⟩ []] ++ (Batch.mk ⟨true⟩ []) :: [Batch.mk ⟨true⟩ []]) =
       { connected := false, calls := [0] }) :=
  ⟨⟨by decide, by decide, by decide⟩,
   C1_primary_path_single_fire 0 1 (some "100px") "100px"
     [Batch.mk ⟨false⟩ []] [Batch.mk ⟨true⟩ []] (Batch.mk ⟨true⟩ [])
     (by decide) (by decide) (by decide)⟩

/-- C2: When the validator rejects the margin, registration throws the
Invalid-Margin error synchronously: no watcher is created and no timer (and
hence no callback invocation) is scheduled. -/
theorem C2_invalid_margin_throws
    (component element : Nat) (marginProp : Option String)
    (h : getValidMargin marginProp = none) :
    registerLazy true component element marginProp =
      RegResult.error invalidMarginMsg ∧
    (∀ m e, registerLazy true component element marginProp ≠
      RegResult.observed m e) ∧
    (∀ d task, registerLazy true component element marginProp ≠
      RegResult.timer d task) := by
  refine ⟨by simp [registerLazy, h], ?_, ?_⟩ <;> intro _ _ <;> simp [registerLazy, h]

/-- Witness for C2 at the margin string of end-to-end scenario 3. -/
theorem C2_invalid_margin_throws_witness :
    getValidMargin (some "invalid") = none ∧
    registerLazy true 0 1 (some "invalid") = RegResult.error invalidMarginMsg :=
  ⟨by decide, (C2_invalid_margin_throws 0 1 (some "invalid") (by decide)).1⟩

/-- C3: Any input string all of whose whitespace-separated tokens match the
token regex — one, two, or four tokens alike — is returned unchanged. -/
theorem C3_valid_tokens_returned_unchanged
    (s : String) (h : (splitWs s.data).all matchToken = true) :
    getValidMargin (some s) = some s := by
  have hs : s ≠ "" := by
    intro he
    subst he
    rw [show splitWs ("" : String).data = [[]] from rfl] at h
    simp [matchToken_nil] at h
  rw [getValidMargin_some_of_ne s hs, if_pos h]

/-- Witness for C3 at a 4-token, a 2-token, and a single-token margin. -/
theorem C3_valid_tokens_returned_unchanged_witness :
    ((splitWs ("10px 20px 30px 40px" : String).data).all matchToken = true ∧
     (splitWs ("10px 20px" : String).data).all matchToken = true ∧
     (splitWs ("-5.5%" : String).data).all matchToken = true) ∧
    (getValidMargin (some "10px 20px 30px 40px") = some "10px 20px 30px 40px" ∧
     getValidMargin (some "10px 20px") = some "10px 20px" ∧
     getValidMargin (some "-5.5%") = some "-5.5%") :=
  ⟨⟨by decide, by decide, by decide⟩,
   ⟨C3_valid_tokens_returned_unchanged _ (by decide),
    C3_valid_tokens_returned_unchanged _ (by decide),
    C3_valid_tokens_returned_unchanged _ (by decide)⟩⟩

/-- C4: With the detection primitive absent, registration creates no watcher
and throws nothing; it schedules one 300 ms timer whose task invokes the
callback exactly once with the component as receiver. No visibility input is
consulted on this path. -/
theorem C4_fallback_timer
    (component element : Nat) (marginProp : Option String) :
    registerLazy false component element marginProp =
      RegResult.timer 300 [component] ∧
    (∀ m e, registerLazy false component element marginProp ≠
      RegResult.observed m e) ∧
    (∀ msg, registerLazy false component element marginProp ≠
      RegResult.error msg) := by
  refine ⟨rfl, ?_, ?_⟩ <;> intros <;> simp [registerLazy]

/-- C5: Undefined and empty margin input both normalize to the default
margin string, not the invalid-signal. -/
theorem C5_default_margin :
    getValidMargin none = some "0px" ∧ getValidMargin (some "") = some "0px" := by
  decide

/-- C6 as stated is false: for the all-whitespace input the validator does
not behave like empty input; it returns the invalid-signal. -/
theorem C6_counterexample :
    getValidMargin (some " ") = none ∧ getValidMargin (some " ") ≠ some "0px" := by
  decide

/-- C6 amended: a nonempty all-whitespace input is rejected — it is truthy,
so it is not defaulted, and splitting it on whitespace runs yields only
empty tokens, which fail the token pattern — the validator returns the
invalid-signal rather than the default. -/
theorem C6_amended_all_whitespace_rejected
    (s : String) (hs : s ≠ "") (hw : ∀ c ∈ s.data, jsWs c = true) :
    getValidMargin (some s) = none := by
  have hd : s.data ≠ [] := data_ne_nil_of_ne_empty s hs
  obtain ⟨c, tl, hcs⟩ := List.exists_cons_of_ne_nil hd
  have hmem : [] ∈ splitWs s.data := by
    rw [hcs]
    exact nil_mem_splitWs_of_head c tl (hw c (by rw [hcs]; simp))
  have hall : (splitWs s.data).all matchToken = false := by
    rcases Bool.eq_false_or_eq_true ((splitWs s.data).all matchToken) with h | h
    · have hmt := List.all_eq_true.mp h [] hmem
      rw [matchToken_nil] at hmt
      exact absurd hmt (by simp)
    · exact h
  rw [getValidMargin_some_of_ne s hs, hall]
  simp

/-- Witness for the amended C6 at a one-space input. -/
theorem C6_amended_all_whitespace_rejected_witness :
    ((" " : String) ≠ "" ∧ (∀ c ∈ (" " : String).data, jsWs c = true)) ∧
    getValidMargin (some " ") = none :=
  ⟨⟨by decide, by decide⟩,
   C6_amended_all_whitespace_rejected " " (by decide) (by decide)⟩

/-- C7 as stated is false: the source keeps no "lazy registered" marker, so
the second registration of the same element is not a no-op — it creates a
second watcher, two watchers in total. -/
theorem C7_counterexample :
    watchersCreated (registerTwice 0 1 none).1 +
      watchersCreated (registerTwice 0 1 none).2 = 2 ∧
    (registerTwice 0 1 none).2 = (registerTwice 0 1 none).1 ∧
    watchersCreated (registerTwice 0 1 none).2 ≠ 0 := by
  decide

/-- C7 amended: with a valid margin, registering the same element twice
creates two watchers — the second call repeats the first instead of being a
no-op — and each watcher invokes the callback once on its first
intersection, two eventual invocations in total. -/
theorem C7_amended_double_registration
    (component element : Nat) (marginProp : Option String) (margin : String)
    (b : Batch)
    (hm : getValidMargin marginProp = some margin)
    (hb : b.first.isIntersecting = true) :
    (registerTwice component element marginProp).1 =
      RegResult.observed margin element ∧
    (registerTwice component element marginProp).2 =
      RegResult.observed margin element ∧
    watchersCreated (registerTwice component element marginProp).1 +
      watchersCreated (registerTwice component element marginProp).2 = 2 ∧
    (deliverAll component initialWatcher [b]).calls ++
      (deliverAll component initialWatcher [b]).calls = [component, component] := by
  refine ⟨by simp [registerTwice, registerLazy, hm],
    by simp [registerTwice, registerLazy, hm],
    by simp [registerTwice, registerLazy, hm, watchersCreated], ?_⟩
  simp [deliverAll, deliver, ioCallback, initialWatcher, hb]

/-- Witness for the amended C7 with the default margin. -/
theorem C7_amended_double_registration_witness :
    (getValidMargin none = some "0px" ∧
     (Batch.mk ⟨true⟩ []).first.isIntersecting = true) ∧
    ((registerTwice 0 1 none).1 = RegResult.observed "0px" 1 ∧
     (registerTwice 0 1 none).2 = RegResult.observed "0px" 1 ∧
     watchersCreated (registerTwice 0 1 none).1 +
       watchersCreated (registerTwice 0 1 none).2 = 2 ∧
     (deliverAll 0 initialWatcher [Batch.mk ⟨true⟩ []]).calls ++
       (deliverAll 0 initialWatcher [Batch.mk ⟨true⟩ []]).calls = [0, 0]) :=
  ⟨⟨by decide, by decide⟩,
   C7_amended_double_registration 0 1 none "0px" (Batch.mk ⟨true⟩ [])
     (by decide) (by decide)⟩

/-- C8: The decorator's replacement hook first performs lazy registration
with the host element, the decorated method and the configured margin, then
invokes the previously attached componentDidLoad exactly when one existed,
returning its result (undefined otherwise): no prior behavior is discarded. -/
theorem C8_decorator_wraps_hook {α : Type}
    (options : Option LazyOptions) (methodName : String)
    (getElement : Nat → Nat) (proto : Proto α) (this_ : Nat) :
    (Lazy options methodName getElement proto this_).1 =
      HookEvent.registerLazyCall this_ (getElement this_) methodName
          (lazyMargin options) ::
        (match proto.componentDidLoad with
         | some orig => [HookEvent.origDidLoad this_ (orig this_)]
         | none => []) ∧
    (Lazy options methodName getElement proto this_).2 =
      Option.map (fun orig => orig this_) proto.componentDidLoad := by
  cases h : proto.componentDidLoad <;> simp [Lazy, h]

/-- C9: When all nonempty tokens of a nonempty input are individually valid,
the validator rejects exactly the inputs carrying leading or trailing
whitespace (the whitespace split yields an empty token there, which fails
the token pattern) and accepts exactly those without. -/
theorem C9_edge_whitespace_rejected
    (s : String) (hs : s ≠ "")
    (hv : ∀ t ∈ splitWs s.data, t ≠ [] → matchToken t = true) :
    (noEdgeWs s.data = false → getValidMargin (some s) = none) ∧
    (getValidMargin (some s) = some s ↔ noEdgeWs s.data = true) := by
  have hd : s.data ≠ [] := data_ne_nil_of_ne_empty s hs
  have key : (splitWs s.data).all matchToken = true ↔ noEdgeWs s.data = true := by
    rw [all_matchToken_iff_nil_not_mem s.data hv,
      nil_not_mem_splitWs_iff s.data hd, noEdgeWs_iff]
  rw [getValidMargin_some_of_ne s hs]
  constructor
  · intro hfalse
    have hall : (splitWs s.data).all matchToken = false := by
      rcases Bool.eq_false_or_eq_true ((splitWs s.data).all matchToken) with h | h
      · rw [key.mp h] at hfalse; exact absurd hfalse (by simp)
      · exact h
    rw [hall]
    simp
  · constructor
    · intro hacc
      rcases Bool.eq_false_or_eq_true ((splitWs s.data).all matchToken) with h | h
      · exact key.mp h
      · rw [h] at hacc; simp at hacc
    · intro hno
      rw [key.mpr hno]
      simp

/-- Witness for C9: a leading space turns an otherwise valid margin into a
rejected one. -/
theorem C9_edge_whitespace_rejected_witness :
    ((" 10px" : String) ≠ "" ∧
     (∀ t ∈ splitWs (" 10px" : String).data, t ≠ [] → matchToken t = true) ∧
     noEdgeWs (" 10px" : String).data = false) ∧
    getValidMargin (some " 10px") = none :=
  ⟨⟨by decide, by decide, by decide⟩,
   (C9_edge_whitespace_rejected " 10px" (by decide) (by decide)).1 (by decide)⟩

/-- C10: A delivery whose first entry is non-intersecting leaves the watcher
untouched — still connected, callback not invoked — regardless of what the
remaining entries of the batch report. -/
theorem C10_only_first_entry_inspected
    (component : Nat) (st : WatcherState) (b : Batch)
    (hb : b.first.isIntersecting = false) :
    deliver component st b = st := by
  simp [deliver, ioCallback, hb]

/-- Witness for C10: the batch's second entry reports intersecting, yet the
delivery is a no-op because the first entry does not. -/
theorem C10_only_first_entry_inspected_witness :
    ((Batch.mk ⟨false⟩ [⟨true⟩]).first.isIntersecting = false) ∧
    deliver 0 initialWatcher (Batch.mk ⟨false⟩ [⟨true⟩]) = initialWatcher :=
  ⟨by decide, C10_only_first_entry_inspected 0 initialWatcher _ (by decide)⟩
